import Mathlib

/-!
Shallow embedding of `src/trackpoint_3d.cpp` (trackpoint-3d): a program that
turns relative trackpoint motion into absolute six-axis events on a synthetic
uinput device, gated by keyboard modifiers and a grab hotkey.

Conventions of the embedding:
* Machine integers (`int`, `int32_t`) are modelled as `Int`; event `type` and
  `code` fields (`uint16_t`) as `Nat`.
* `write(fd, ...)` calls are modelled by the list of event records written, in
  order; an event record is `(type, code, value)`.
* The gain (`double args.gain`) is modelled as an `Int`: for integral gains the
  C++ `static_cast<int>(dx * gain)` is exact integer multiplication.
* The diagonal-normalization branch multiplies by the exact real
  `max(|dx|,|dy|) * sqrt 2 / (|dx|+|dy|)` and truncates toward zero; this is
  implemented exactly with `Nat.sqrt` (`trunc (k * sqrt 2 / s) = sqrt (2*k^2) / s`
  on naturals).
-/

namespace Trackpoint3d

/-- Linux input event type `EV_SYN` (0). -/
def EV_SYN : Nat := 0
/-- Linux input event type `EV_KEY` (1). -/
def EV_KEY : Nat := 1
/-- Linux input event type `EV_REL` (2). -/
def EV_REL : Nat := 2
/-- Linux input event type `EV_ABS` (3). -/
def EV_ABS : Nat := 3
/-- Linux sync code `SYN_REPORT` (0). -/
def SYN_REPORT : Nat := 0
/-- Relative axis code `REL_X` (0). -/
def REL_X : Nat := 0
/-- Relative axis code `REL_Y` (1). -/
def REL_Y : Nat := 1
/-- Absolute axis code `ABS_X` (0). -/
def ABS_X : Nat := 0
/-- Absolute axis code `ABS_Y` (1). -/
def ABS_Y : Nat := 1
/-- Absolute axis code `ABS_Z` (2). -/
def ABS_Z : Nat := 2
/-- Absolute axis code `ABS_RX` (3). -/
def ABS_RX : Nat := 3
/-- Absolute axis code `ABS_RY` (4). -/
def ABS_RY : Nat := 4
/-- Absolute axis code `ABS_RZ` (5). -/
def ABS_RZ : Nat := 5

/-- Source: `constexpr int AXIS_MIN = -5000;` -/
def AXIS_MIN : Int := -5000
/-- Source: `constexpr int AXIS_MAX = 5000;` -/
def AXIS_MAX : Int := 5000
/-- Source: `constexpr int DEADZONE = 2;` -/
def DEADZONE : Nat := 2

/-- Source: `const int ALL_AXES[6] = {ABS_X, ABS_Y, ABS_Z, ABS_RX, ABS_RY, ABS_RZ};` -/
def ALL_AXES : List Nat := [ABS_X, ABS_Y, ABS_Z, ABS_RX, ABS_RY, ABS_RZ]

/-- One `struct input_event` record as written to the uinput fd:
`(type, code, value)`. -/
structure InputEvent where
  type : Nat
  code : Nat
  value : Int
deriving DecidableEq, Repr

/-- Source: `emit(fd, type, code, value, syn)`: writes one event record and, if `syn`
is true, one `(EV_SYN, SYN_REPORT, 0)` synchronization record after it.
The result is the list of records written, in order. -/
def emit (t c : Nat) (v : Int) (syn : Bool) : List InputEvent :=
  if syn then [⟨t, c, v⟩, ⟨EV_SYN, SYN_REPORT, 0⟩] else [⟨t, c, v⟩]

/-- Source: `int clamp(int v) { return std::max(AXIS_MIN, std::min(AXIS_MAX, v)); }` -/
def clamp (v : Int) : Int := max AXIS_MIN (min AXIS_MAX v)

/-- Source: `zero_all_axes(ufd)`: emits each of the six axes set to 0 with `syn=false`,
then `emit(ufd, EV_SYN, SYN_REPORT, 0, true)`. -/
def zero_all_axes : List InputEvent :=
  (ALL_AXES.map (fun a => emit EV_ABS a 0 false)).flatten ++ emit EV_SYN SYN_REPORT 0 true

/-- Source: `enum class Mode { ORBIT, TILT, PAN };` -/
inductive Mode where
  | orbit
  | tilt
  | pan
deriving DecidableEq, Repr

/-- Mode resolution from the snapshot of modifier state
(`Mode mode = Mode::ORBIT; if (shift) mode = Mode::TILT; else if (ctrl) mode = Mode::PAN;`). -/
def resolve_mode (shift ctrl : Bool) : Mode :=
  if shift then Mode.tilt else if ctrl then Mode.pan else Mode.orbit

/-- Source: `int dx = (ev.code == REL_X) ? ev.value : 0;` -/
def extract_dx (code : Nat) (value : Int) : Int :=
  if code = REL_X then value else 0

/-- Source: `int dy = (ev.code == REL_Y) ? ev.value : 0;` -/
def extract_dy (code : Nat) (value : Int) : Int :=
  if code = REL_Y then value else 0

/-- Source: `if (std::abs(d) < DEADZONE) d = 0;` -/
def apply_deadzone (d : Int) : Int :=
  if d.natAbs < DEADZONE then 0 else d

/-- Truncation toward zero of the exact real `v * m * sqrt 2 / s`
(`static_cast<int>` of the scaled component in the diagonal branch). -/
def diag_trunc (v : Int) (m s : Nat) : Int :=
  Int.sign v * Int.ofNat (Nat.sqrt (2 * (v.natAbs * m) ^ 2) / s)

/-- The diagonal-normalization branch:
`if (dx && dy) { double scale = max(|dx|,|dy|) / ((|dx|+|dy|) / sqrt(2)); dx = int(dx*scale); dy = int(dy*scale); }`,
with the floating-point arithmetic replaced by exact real arithmetic. -/
def diag_normalize (dx dy : Int) : Int × Int :=
  if dx ≠ 0 ∧ dy ≠ 0 then
    let m := max dx.natAbs dy.natAbs
    let s := dx.natAbs + dy.natAbs
    (diag_trunc dx m s, diag_trunc dy m s)
  else (dx, dy)

/-- The per-mode axis pair written at the end of the translator loop body:
first emit without sync, second emit with sync (the `emit` default). -/
def mode_pair (mode : Mode) (sx sy : Int) : List InputEvent :=
  match mode with
  | Mode.tilt => emit EV_ABS ABS_RY (clamp (-sx)) false ++ emit EV_ABS ABS_Y (clamp (-sy)) true
  | Mode.pan => emit EV_ABS ABS_X (clamp sx) false ++ emit EV_ABS ABS_Z (clamp (-sy)) true
  | Mode.orbit => emit EV_ABS ABS_RZ (clamp (-sx)) false ++ emit EV_ABS ABS_RX (clamp (-sy)) true

/-- The Motion Translator loop body for one relative-motion event read while
grabbed (`rc == 0 && grabbed && ev.type == EV_REL`), given the snapshot of the
shift/ctrl modifiers, the previous mode `last`, and the code and value of the event.
Returns the list of records written to the uinput fd and the new `last_mode`. -/
def translate_event (gain : Int) (shift ctrl : Bool) (last : Mode)
    (code : Nat) (value : Int) : List InputEvent × Mode :=
  let dx1 := apply_deadzone (extract_dx code value)
  let dy1 := apply_deadzone (extract_dy code value)
  if dx1 = 0 ∧ dy1 = 0 then ([], last)
  else
    let d2 := diag_normalize dx1 dy1
    let sx := d2.1 * gain
    let sy := d2.2 * gain
    let mode := resolve_mode shift ctrl
    let pre := if mode ≠ last then zero_all_axes else []
    (pre ++ mode_pair mode sx sy, mode)

/-- The guard of the translator loop body: the event is processed only when the
read succeeded, the grab flag is set and the event is a relative-motion event. -/
def process_event (gain : Int) (shift ctrl grabbed : Bool) (last : Mode)
    (ev : InputEvent) : List InputEvent × Mode :=
  if grabbed ∧ ev.type = EV_REL then
    translate_event gain shift ctrl last ev.code ev.value
  else ([], last)

/-! ### Device discovery: capability probe, catalog scan, selector -/

/-- Source: `to_lower`: lowercases every character (`::tolower` per char; the source
only ever compares ASCII device names and patterns). -/
def to_lower (s : String) : String := String.mk (s.data.map Char.toLower)

/-- Whether `needle` matches the front of `hay` character by character. -/
def matches_front : List Char → List Char → Bool
  | [], _ => true
  | _ :: _, [] => false
  | a :: as, b :: bs => a == b && matches_front as bs

/-- Whether `needle` occurs as a contiguous run inside `hay`
(`std::string::find(needle) != npos`; the empty needle always matches). -/
def has_sub (needle : List Char) : List Char → Bool
  | [] => needle.isEmpty
  | b :: bs => matches_front needle (b :: bs) || has_sub needle bs

/-- Source: `has_sub` on strings, case-sensitive (`base.find("event-")`). -/
def has_sub_str (needle hay : String) : Bool :=
  has_sub needle.toList hay.toList

/-- Source: `contains_ci(hay, needle)`: case-insensitive substring test
(`to_lower(hay).find(to_lower(needle)) != npos`). -/
def contains_ci (hay needle : String) : Bool :=
  has_sub (to_lower needle).toList (to_lower hay).toList

/-- The suffix test in `choose_ordered`:
`c.base.size() >= suffix.size() && c.base.compare(size-|suffix|, |suffix|, suffix) == 0`
(a candidate with a shorter base name is skipped). -/
def ends_with_str (s suf : String) : Bool :=
  let sl := s.toList
  let fl := suf.toList
  if sl.length < fl.length then false
  else (sl.drop (sl.length - fl.length)) == fl

/-- Source: `struct Candidate { path; base; origin; name; has_rel_xy; has_keys; }` -/
structure Candidate where
  path : String
  base : String
  origin : String
  name : String
  has_rel_xy : Bool
  has_keys : Bool
deriving DecidableEq, Repr

/-- Source: `want_mouse ? "-event-mouse" : "-event-kbd"` -/
def suffix_for (want_mouse : Bool) : String :=
  if want_mouse then "-event-mouse" else "-event-kbd"

/-- The capability requirement per class: relative-XY for the pointer class,
keys for the keyboard class. -/
def cap_ok (c : Candidate) (want_mouse : Bool) : Bool :=
  if want_mouse then c.has_rel_xy else c.has_keys

/-- The `typed` filter at the head of `choose_ordered`: keep candidates whose
base name ends in the class suffix and whose capability flag matches the class. -/
def typed_filter (pool : List Candidate) (want_mouse : Bool) : List Candidate :=
  pool.filter (fun c => ends_with_str c.base (suffix_for want_mouse) && cap_ok c want_mouse)

/-- The per-candidate match test against a pattern, as in both the rule loop
and the keyword loop:
`contains_ci(pc->base, r) || (!pc->name.empty() && contains_ci(pc->name, r))`. -/
def cand_matches (c : Candidate) (r : String) : Bool :=
  contains_ci c.base r || (!c.name.isEmpty && contains_ci c.name r)

/-- The human-readable selection reason (`reason` out-parameter), as structured
data: rule index and pattern, matched keyword, or first capable in order. -/
inductive Reason where
  | byRule (idx : Nat) (pat : String)
  | byKeyword (kw : String)
  | firstCapable
deriving DecidableEq, Repr

/-- The rule loop of `choose_ordered`: rules in order (1-based index `rix`,
counting empty rules, which are skipped), each rule scanning all of `typed`
in order; the first candidate matching the first matching rule wins. -/
def rule_scan (typed : List Candidate) : List String → Nat → Option (String × Reason)
  | [], _ => none
  | r :: rest, rix =>
    if r.isEmpty then rule_scan typed rest (rix + 1)
    else
      match typed.find? (fun c => cand_matches c r) with
      | some c => some (c.path, Reason.byRule rix r)
      | none => rule_scan typed rest (rix + 1)

/-- Source: `static const std::vector<std::string> tp_kws` -/
def tp_kws : List String :=
  ["trackpoint", "thinkpad", "lenovo", "trackpad", "touchpad", "logitech", "mouse"]

/-- Source: `static const std::vector<std::string> kb_kws` -/
def kb_kws : List String :=
  ["keyboard", "kbd", "thinkpad", "lenovo", "logitech"]

/-- The keyword loop of `choose_ordered`: keywords in priority order, each
keyword scanning all of `typed` before the next keyword is tried. -/
def kw_scan (typed : List Candidate) : List String → Option (String × Reason)
  | [] => none
  | kw :: rest =>
    match typed.find? (fun c => cand_matches c kw) with
    | some c => some (c.path, Reason.byKeyword kw)
    | none => kw_scan typed rest

/-- Source: `choose_ordered(pool, want_mouse, rules, reason)`: filter to `typed`;
empty `typed` returns none (the empty string in the source); otherwise the rule
loop, then the keyword loop, then `typed.front()`. -/
def choose_ordered (pool : List Candidate) (want_mouse : Bool)
    (rules : List String) : Option (String × Reason) :=
  match typed_filter pool want_mouse with
  | [] => none
  | c0 :: rest =>
    match rule_scan (c0 :: rest) rules 1 with
    | some pr => some pr
    | none =>
      match kw_scan (c0 :: rest) (if want_mouse then tp_kws else kb_kws) with
      | some pr => some pr
      | none => some (c0.path, Reason.firstCapable)

/-! ### Catalog scanner and capability probe -/

/-- What `libevdev` reports about an opened device: the (nullable) name and
the event-type/code bits queried by `evdev_caps`. -/
structure ProbeInfo where
  name : Option String
  has_rel : Bool
  has_rel_x : Bool
  has_rel_y : Bool
  has_key_type : Bool
deriving DecidableEq, Repr

/-- One directory entry as seen by `scan_symlinks`: its path, base name,
whether it is a symbolic link, and the result of opening it for probing
(`none` models `open`/`libevdev_new_from_fd` failure). -/
structure FsEntry where
  path : String
  base : String
  is_link : Bool
  probe : Option ProbeInfo
deriving DecidableEq, Repr

/-- Source: `evdev_caps(path, name_out, relxy_out, keys_out)`: the outputs start as
`("", false, false)` and stay so when the open fails; on success the name is
the reported name (empty when null), `relxy` requires `EV_REL` with both
`REL_X` and `REL_Y`, and `keys` requires the `EV_KEY` type. -/
def evdev_caps (probe : Option ProbeInfo) : String × Bool × Bool :=
  match probe with
  | none => ("", false, false)
  | some i => (i.name.getD "", i.has_rel && i.has_rel_x && i.has_rel_y, i.has_key_type)

/-- Insertion into a list sorted by `base` (ascending). -/
def insert_by_base (c : Candidate) : List Candidate → List Candidate
  | [] => [c]
  | d :: ds => if c.base ≤ d.base then c :: d :: ds else d :: insert_by_base c ds

/-- Source: `std::sort(v.begin(), v.end(), [](a, b){ return a.base < b.base; })`,
modelled as insertion sort on the base name. -/
def sort_by_base : List Candidate → List Candidate
  | [] => []
  | c :: cs => insert_by_base c (sort_by_base cs)

/-- Source: `scan_symlinks(dir, origin)`: an absent directory yields the empty list;
otherwise keep the symbolic-link entries whose base name contains `"event-"`,
attach the probe results, and sort by base name. -/
def scan_symlinks (dir_exists : Bool) (entries : List FsEntry)
    (origin : String) : List Candidate :=
  if dir_exists then
    sort_by_base (entries.filterMap (fun e =>
      if !e.is_link then none
      else if !has_sub_str "event-" e.base then none
      else
        let caps := evdev_caps e.probe
        some { path := e.path, base := e.base, origin := origin,
               name := caps.1, has_rel_xy := caps.2.1, has_keys := caps.2.2 }))
  else []

/-! ### The wait missing-device policy loop -/

/-- The condition of the wait loop:
`!ok && (args.wait_secs == 0 || waited < args.wait_secs)`. -/
def wait_loop_cond (wait_secs waited : Nat) (ok : Bool) : Bool :=
  !ok && (wait_secs == 0 || waited < wait_secs)

/-- The wait loop, fuel-indexed: each iteration wakes (inotify event or the
1000 ms poll tick), increments `waited` and re-runs autodetection (`ok_at
waited` is the outcome of the rescan of iteration `waited`). Returns
`some (waited, ok)` when the loop exits within `fuel` iterations, `none` when
it is still running after `fuel` iterations. -/
def wait_loop (wait_secs : Nat) (ok_at : Nat → Bool) :
    Nat → Nat → Bool → Option (Nat × Bool)
  | 0, _, _ => none
  | fuel + 1, waited, ok =>
    if wait_loop_cond wait_secs waited ok then
      wait_loop wait_secs ok_at fuel (waited + 1) (ok_at waited)
    else some (waited, ok)

/-! ### Helper lemmas -/

theorem clamp_lower (v : Int) : AXIS_MIN ≤ clamp v := le_max_left _ _

theorem clamp_upper (v : Int) : clamp v ≤ AXIS_MAX := by
  unfold clamp AXIS_MIN AXIS_MAX
  rw [max_def, min_def]
  split_ifs <;> omega

theorem zero_all_values : ∀ e ∈ zero_all_axes, e.value = 0 := by decide

theorem mem_mode_pair_range (mode : Mode) (sx sy : Int) :
    ∀ e ∈ mode_pair mode sx sy, AXIS_MIN ≤ e.value ∧ e.value ≤ AXIS_MAX := by
  intro e he
  cases mode <;> simp [mode_pair, emit] at he <;>
    rcases he with h | h | h <;> subst h <;>
    first
      | exact ⟨clamp_lower _, clamp_upper _⟩
      | exact ⟨by norm_num [AXIS_MIN], by norm_num [AXIS_MAX]⟩

theorem apply_deadzone_zero : apply_deadzone 0 = 0 := by decide

theorem diag_normalize_left_zero (dy : Int) : diag_normalize 0 dy = (0, dy) := by
  simp [diag_normalize]

theorem diag_normalize_right_zero (dx : Int) : diag_normalize dx 0 = (dx, 0) := by
  simp [diag_normalize]

/-! ### Claims -/

/-- C3. Mode resolution is a pure function of the (shift, ctrl) snapshot:
shift pressed (either side) gives Tilt regardless of ctrl, otherwise ctrl
gives Pan, otherwise Orbit. -/
theorem resolve_mode_pure :
    ∀ ctrl : Bool,
      resolve_mode true ctrl = Mode.tilt ∧
      resolve_mode false true = Mode.pan ∧
      resolve_mode false false = Mode.orbit := by decide

/-- C10. A single relative-motion event carries one axis code, so at most one
of the extracted components dx, dy is nonzero; consequently the
diagonal-normalization branch (which requires both nonzero) leaves the
deadzoned pair unchanged for every single event. -/
theorem single_event_no_diag :
    ∀ (code : Nat) (value : Int),
      (extract_dx code value = 0 ∨ extract_dy code value = 0) ∧
      diag_normalize (apply_deadzone (extract_dx code value))
          (apply_deadzone (extract_dy code value)) =
        (apply_deadzone (extract_dx code value),
         apply_deadzone (extract_dy code value)) := by
  intro code value
  unfold extract_dx extract_dy REL_X REL_Y
  by_cases hx : code = 0 <;> by_cases hy : code = 1
  · omega
  · subst hx
    simp [apply_deadzone_zero, diag_normalize_right_zero]
  · subst hy
    simp [apply_deadzone_zero, diag_normalize_left_zero]
  · simp [hx, hy, apply_deadzone_zero, diag_normalize_left_zero]

/-- C5. The per-mode axis mapping: Tilt emits rot-Y = clamp(-sx) without sync
then Y = clamp(-sy) with sync; Pan emits X = clamp(sx) then Z = clamp(-sy);
Orbit emits rot-Z = clamp(-sx) then rot-X = clamp(-sy); and Scenario A
(dx = 100, dy = 0, gain = 60, mode = Orbit) emits rot-Z = -5000 (no sync)
then rot-X = 0 (sync). -/
theorem mode_axis_mapping :
    (∀ sx sy : Int,
      mode_pair Mode.tilt sx sy =
        [⟨EV_ABS, ABS_RY, clamp (-sx)⟩, ⟨EV_ABS, ABS_Y, clamp (-sy)⟩,
         ⟨EV_SYN, SYN_REPORT, 0⟩] ∧
      mode_pair Mode.pan sx sy =
        [⟨EV_ABS, ABS_X, clamp sx⟩, ⟨EV_ABS, ABS_Z, clamp (-sy)⟩,
         ⟨EV_SYN, SYN_REPORT, 0⟩] ∧
      mode_pair Mode.orbit sx sy =
        [⟨EV_ABS, ABS_RZ, clamp (-sx)⟩, ⟨EV_ABS, ABS_RX, clamp (-sy)⟩,
         ⟨EV_SYN, SYN_REPORT, 0⟩]) ∧
    translate_event 60 false false Mode.orbit REL_X 100 =
      ([⟨EV_ABS, ABS_RZ, -5000⟩, ⟨EV_ABS, ABS_RX, 0⟩, ⟨EV_SYN, SYN_REPORT, 0⟩],
       Mode.orbit) := by
  constructor
  · intro sx sy
    exact ⟨rfl, rfl, rfl⟩
  · decide

/-- C1 counterexample. `zero_all_axes` does not write exactly one
synchronization event after the six zero writes: the final
`emit(ufd, EV_SYN, SYN_REPORT, 0, true)` writes the SYN_REPORT record and then,
because `syn` is true, a second SYN_REPORT record, for eight records in total. -/
theorem zero_all_not_one_sync :
    (zero_all_axes.filter (fun e => e.type == EV_SYN)).length = 2 ∧
    ¬ (zero_all_axes.filter (fun e => e.type == EV_SYN)).length = 1 ∧
    zero_all_axes.length = 8 := by decide

/-- C1 (amended). Every call of the zero-all primitive writes exactly six
axis-value events, each setting one of the six axes to zero, with no
synchronization event between them, followed by exactly two synchronization
events; and every mode transition emits exactly one such full-zero frame
strictly before any axis write in the new mode. -/
theorem zero_all_frame_on_transition :
    zero_all_axes =
      [⟨EV_ABS, ABS_X, 0⟩, ⟨EV_ABS, ABS_Y, 0⟩, ⟨EV_ABS, ABS_Z, 0⟩,
       ⟨EV_ABS, ABS_RX, 0⟩, ⟨EV_ABS, ABS_RY, 0⟩, ⟨EV_ABS, ABS_RZ, 0⟩,
       ⟨EV_SYN, SYN_REPORT, 0⟩, ⟨EV_SYN, SYN_REPORT, 0⟩] ∧
    ∀ gain shift ctrl last code value,
      resolve_mode shift ctrl ≠ last →
      (translate_event gain shift ctrl last code value).1 ≠ [] →
      (translate_event gain shift ctrl last code value).1 =
        zero_all_axes ++
          mode_pair (resolve_mode shift ctrl)
            ((diag_normalize (apply_deadzone (extract_dx code value))
                (apply_deadzone (extract_dy code value))).1 * gain)
            ((diag_normalize (apply_deadzone (extract_dx code value))
                (apply_deadzone (extract_dy code value))).2 * gain) := by
  refine ⟨by decide, ?_⟩
  intro gain shift ctrl last code value hmode hne
  unfold translate_event at hne ⊢
  by_cases hskip :
      apply_deadzone (extract_dx code value) = 0 ∧
      apply_deadzone (extract_dy code value) = 0
  · simp [hskip] at hne
  · simp [hskip, hmode]

/-- C1 witness: a tilt-entering event (shift held, previous mode orbit)
emits the zero frame followed by the tilt pair. -/
theorem zero_all_frame_on_transition_witness :
    (translate_event 60 true false Mode.orbit REL_X 100).1 =
      zero_all_axes ++
        mode_pair (resolve_mode true false)
          ((diag_normalize (apply_deadzone (extract_dx REL_X 100))
              (apply_deadzone (extract_dy REL_X 100))).1 * 60)
          ((diag_normalize (apply_deadzone (extract_dx REL_X 100))
              (apply_deadzone (extract_dy REL_X 100))).2 * 60) :=
  zero_all_frame_on_transition.2 60 true false Mode.orbit REL_X 100
    (by decide) (by decide)

/-- C4. An event both of whose extracted components are below the deadzone
threshold produces no emission and leaves the translator state unchanged. -/
theorem deadzone_no_emission :
    ∀ gain shift ctrl last code value,
      (extract_dx code value).natAbs < DEADZONE →
      (extract_dy code value).natAbs < DEADZONE →
      translate_event gain shift ctrl last code value = ([], last) := by
  intro gain shift ctrl last code value hx hy
  have h1 : apply_deadzone (extract_dx code value) = 0 := by
    unfold apply_deadzone
    simp [hx]
  have h2 : apply_deadzone (extract_dy code value) = 0 := by
    unfold apply_deadzone
    simp [hy]
  unfold translate_event
  simp [h1, h2]

/-- C4 witness: a REL_X event with value 1 (below the deadzone) is skipped. -/
theorem deadzone_no_emission_witness :
    (extract_dx REL_X 1).natAbs < DEADZONE ∧
    (extract_dy REL_X 1).natAbs < DEADZONE ∧
    translate_event 60 false false Mode.orbit REL_X 1 = ([], Mode.orbit) :=
  ⟨by decide, by decide,
   deadzone_no_emission 60 false false Mode.orbit REL_X 1 (by decide) (by decide)⟩

/-- C2. `clamp` clamps to the nearest bound and never wraps, and every
axis-value record the translator writes lies within [-5000, 5000], for every
input delta and every gain. -/
theorem emitted_values_clamped :
    (∀ v : Int,
      (AXIS_MAX < v → clamp v = AXIS_MAX) ∧
      (v < AXIS_MIN → clamp v = AXIS_MIN) ∧
      (AXIS_MIN ≤ v → v ≤ AXIS_MAX → clamp v = v)) ∧
    (∀ gain shift ctrl last code value e,
      e ∈ (translate_event gain shift ctrl last code value).1 →
      e.type = EV_ABS →
      AXIS_MIN ≤ e.value ∧ e.value ≤ AXIS_MAX) := by
  constructor
  · intro v
    unfold clamp AXIS_MIN AXIS_MAX
    rw [max_def, min_def]
    refine ⟨?_, ?_, ?_⟩ <;> intros <;> split_ifs <;> omega
  · intro gain shift ctrl last code value e he _
    unfold translate_event at he
    by_cases hskip :
        apply_deadzone (extract_dx code value) = 0 ∧
        apply_deadzone (extract_dy code value) = 0
    · simp [hskip] at he
    · simp only [if_neg hskip] at he
      rw [List.mem_append] at he
      rcases he with he | he
      · have hz : e.value = 0 := by
          by_cases hm : resolve_mode shift ctrl ≠ last
          · rw [if_pos hm] at he
            exact zero_all_values e he
          · rw [if_neg hm] at he
            exact absurd he (List.not_mem_nil e)
        constructor <;> rw [hz] <;> decide
      · exact mem_mode_pair_range _ _ _ e he

/-- C2 witness: the Scenario A event writes rot-Z = -5000, which lies within
the axis range. -/
theorem emitted_values_clamped_witness :
    AXIS_MIN ≤ (InputEvent.mk EV_ABS ABS_RZ (-5000)).value ∧
    (InputEvent.mk EV_ABS ABS_RZ (-5000)).value ≤ AXIS_MAX :=
  emitted_values_clamped.2 60 false false Mode.orbit REL_X 100
    ⟨EV_ABS, ABS_RZ, -5000⟩ (by decide) rfl

theorem wait_loop_exits (N : Nat) (hN : 0 < N) :
    ∀ k waited, waited + k = N →
      wait_loop N (fun _ => false) (k + 1) waited false = some (N, false) := by
  intro k
  induction k with
  | zero =>
    intro waited hw
    have hw0 : waited = N := by omega
    rw [hw0]
    unfold wait_loop wait_loop_cond
    have hc : (N == 0 || decide (N < N)) = false := by
      simp
      omega
    simp [hc]
    intro h0
    omega
  | succ k ih =>
    intro waited hw
    have hlt : waited < N := by omega
    unfold wait_loop wait_loop_cond
    have hc : (N == 0 || decide (waited < N)) = true := by
      simp [hlt]
    simp only [hc, Bool.not_false, Bool.true_and, if_pos]
    exact ih (waited + 1) (by omega)

theorem wait_loop_never_exits :
    ∀ fuel waited, wait_loop 0 (fun _ => false) fuel waited false = none := by
  intro fuel
  induction fuel with
  | zero => intro waited; rfl
  | succ fuel ih =>
    intro waited
    unfold wait_loop wait_loop_cond
    simp [ih]

/-- C8. Under the wait policy with a nonzero timeout of N seconds and no
qualifying candidate ever appearing, the selection loop performs exactly N
wake-and-rescan iterations and then stops with `ok = false` (failure); with
timeout 0 the loop never exits, whatever fuel it is given. -/
theorem wait_policy_timeout :
    ∀ N fuel : Nat, 0 < N →
      wait_loop N (fun _ => false) (N + 1) 0 false = some (N, false) ∧
      wait_loop 0 (fun _ => false) fuel 0 false = none := by
  intro N fuel hN
  exact ⟨wait_loop_exits N hN N 0 (by omega), wait_loop_never_exits fuel 0⟩

/-- C8 witness: Scenario E, timeout = 5 and autodetection never succeeding:
the loop exits after exactly 5 iterations with failure, while with timeout 0
it is still running after 7 iterations. -/
theorem wait_policy_timeout_witness :
    wait_loop 5 (fun _ => false) 6 0 false = some (5, false) ∧
    wait_loop 0 (fun _ => false) 7 0 false = none :=
  wait_policy_timeout 5 7 (by decide)

theorem rule_scan_nil (rules : List String) (rix : Nat) :
    rule_scan [] rules rix = none := by
  induction rules generalizing rix with
  | nil => rfl
  | cons r rest ih =>
    unfold rule_scan
    by_cases he : r.isEmpty <;> simp [he, List.find?, ih]

theorem kw_scan_nil (kws : List String) : kw_scan [] kws = none := by
  induction kws with
  | nil => rfl
  | cons kw rest ih =>
    unfold kw_scan
    simp [List.find?, ih]

theorem rule_scan_mem (typed : List Candidate) :
    ∀ (rules : List String) (rix : Nat) (p : String) (reason : Reason),
      rule_scan typed rules rix = some (p, reason) →
      ∃ c, c ∈ typed ∧ c.path = p := by
  intro rules
  induction rules with
  | nil => intro rix p reason h; exact absurd h (by simp [rule_scan])
  | cons r rest ih =>
    intro rix p reason h
    unfold rule_scan at h
    by_cases he : r.isEmpty
    · rw [if_pos he] at h
      exact ih _ _ _ h
    · rw [if_neg he] at h
      cases hf : typed.find? (fun c => cand_matches c r) with
      | none => rw [hf] at h; exact ih _ _ _ h
      | some c =>
        rw [hf] at h
        refine ⟨c, List.mem_of_find?_eq_some hf, ?_⟩
        injection h with h1
        exact congrArg Prod.fst h1

theorem kw_scan_mem (typed : List Candidate) :
    ∀ (kws : List String) (p : String) (reason : Reason),
      kw_scan typed kws = some (p, reason) →
      ∃ c, c ∈ typed ∧ c.path = p := by
  intro kws
  induction kws with
  | nil => intro p reason h; exact absurd h (by simp [kw_scan])
  | cons kw rest ih =>
    intro p reason h
    unfold kw_scan at h
    cases hf : typed.find? (fun c => cand_matches c kw) with
    | none => rw [hf] at h; exact ih _ _ h
    | some c =>
      rw [hf] at h
      refine ⟨c, List.mem_of_find?_eq_some hf, ?_⟩
      injection h with h1
      exact congrArg Prod.fst h1

theorem rule_scan_some_iff (typed : List Candidate) :
    ∀ (rules : List String) (rix : Nat),
      (∃ pr, rule_scan typed rules rix = some pr) ↔
      ∃ r, r ∈ rules ∧ r.isEmpty = false ∧
        ∃ c, c ∈ typed ∧ cand_matches c r = true := by
  intro rules
  induction rules with
  | nil => intro rix; simp [rule_scan]
  | cons r rest ih =>
    intro rix
    unfold rule_scan
    by_cases he : r.isEmpty
    · rw [if_pos he, ih]
      constructor
      · rintro ⟨r2, hr2, hne, hc⟩
        exact ⟨r2, List.mem_cons_of_mem _ hr2, hne, hc⟩
      · rintro ⟨r2, hr2, hne, hc⟩
        rcases List.mem_cons.mp hr2 with heq | hmem
        · rw [heq] at hne; rw [hne] at he; exact absurd he (by simp)
        · exact ⟨r2, hmem, hne, hc⟩
    · rw [if_neg he]
      cases hf : typed.find? (fun c => cand_matches c r) with
      | none =>
        rw [ih]
        have hno : ∀ c ∈ typed, ¬ cand_matches c r = true :=
          fun c hc => by simpa using List.find?_eq_none.mp hf c hc
        constructor
        · rintro ⟨r2, hr2, hne, hc⟩
          exact ⟨r2, List.mem_cons_of_mem _ hr2, hne, hc⟩
        · rintro ⟨r2, hr2, hne, c, hcmem, hcm⟩
          rcases List.mem_cons.mp hr2 with heq | hmem
          · rw [heq] at hcm; exact absurd hcm (hno c hcmem)
          · exact ⟨r2, hmem, hne, c, hcmem, hcm⟩
      | some c =>
        constructor
        · intro _
          have hm := List.find?_some hf
          exact ⟨r, List.mem_cons_self r rest, by simpa using he,
                 c, List.mem_of_find?_eq_some hf, by simpa using hm⟩
        · intro _
          exact ⟨(c.path, Reason.byRule rix r), rfl⟩

theorem kw_scan_some_iff (typed : List Candidate) :
    ∀ kws : List String,
      (∃ pr, kw_scan typed kws = some pr) ↔
      ∃ kw, kw ∈ kws ∧ ∃ c, c ∈ typed ∧ cand_matches c kw = true := by
  intro kws
  induction kws with
  | nil => simp [kw_scan]
  | cons kw rest ih =>
    unfold kw_scan
    cases hf : typed.find? (fun c => cand_matches c kw) with
    | none =>
      rw [ih]
      have hno : ∀ c ∈ typed, ¬ cand_matches c kw = true :=
        fun c hc => by simpa using List.find?_eq_none.mp hf c hc
      constructor
      · rintro ⟨kw2, hkw2, hc⟩
        exact ⟨kw2, List.mem_cons_of_mem _ hkw2, hc⟩
      · rintro ⟨kw2, hkw2, c, hcmem, hcm⟩
        rcases List.mem_cons.mp hkw2 with heq | hmem
        · rw [heq] at hcm; exact absurd hcm (hno c hcmem)
        · exact ⟨kw2, hmem, c, hcmem, hcm⟩
    | some c =>
      constructor
      · intro _
        have hm := List.find?_some hf
        exact ⟨kw, List.mem_cons_self kw rest,
               c, List.mem_of_find?_eq_some hf, by simpa using hm⟩
      · intro _
        exact ⟨(c.path, Reason.byKeyword kw), rfl⟩

theorem mem_typed_filter (pool : List Candidate) (want : Bool) (c : Candidate) :
    c ∈ typed_filter pool want →
    c ∈ pool ∧ ends_with_str c.base (suffix_for want) = true ∧ cap_ok c want = true := by
  intro h
  rw [typed_filter, List.mem_filter, Bool.and_eq_true] at h
  exact ⟨h.1, h.2.1, h.2.2⟩

/-- C6. Selector precedence: a rule-scan result always wins over the keyword
scan, which wins over the first filtered candidate; and each scan succeeds
exactly when one of its patterns (a nonempty rule, resp. a built-in keyword)
matches some filtered candidate. -/
theorem choose_ordered_precedence :
    ∀ (pool : List Candidate) (want : Bool) (rules : List String),
      ((∃ pr, rule_scan (typed_filter pool want) rules 1 = some pr) ↔
        ∃ r, r ∈ rules ∧ r.isEmpty = false ∧
          ∃ c, c ∈ typed_filter pool want ∧ cand_matches c r = true) ∧
      ((∃ pr, kw_scan (typed_filter pool want)
          (if want then tp_kws else kb_kws) = some pr) ↔
        ∃ kw, kw ∈ (if want then tp_kws else kb_kws) ∧
          ∃ c, c ∈ typed_filter pool want ∧ cand_matches c kw = true) ∧
      (∀ pr, rule_scan (typed_filter pool want) rules 1 = some pr →
        choose_ordered pool want rules = some pr) ∧
      (rule_scan (typed_filter pool want) rules 1 = none →
        ∀ pr, kw_scan (typed_filter pool want)
            (if want then tp_kws else kb_kws) = some pr →
          choose_ordered pool want rules = some pr) ∧
      (rule_scan (typed_filter pool want) rules 1 = none →
        kw_scan (typed_filter pool want) (if want then tp_kws else kb_kws) = none →
        ∀ c0 rest, typed_filter pool want = c0 :: rest →
          choose_ordered pool want rules = some (c0.path, Reason.firstCapable)) := by
  intro pool want rules
  refine ⟨rule_scan_some_iff _ _ _, kw_scan_some_iff _ _, ?_, ?_, ?_⟩
  · intro pr h
    cases htyped : typed_filter pool want with
    | nil => rw [htyped, rule_scan_nil] at h; exact absurd h (by simp)
    | cons c0 rest =>
      rw [htyped] at h
      simp only [choose_ordered, htyped, h]
  · intro hrule pr h
    cases htyped : typed_filter pool want with
    | nil => rw [htyped, kw_scan_nil] at h; exact absurd h (by simp)
    | cons c0 rest =>
      rw [htyped] at h hrule
      simp only [choose_ordered, htyped, hrule, h]
  · intro hrule hkw c0 rest htyped
    rw [htyped] at hrule hkw
    simp only [choose_ordered, htyped, hrule, hkw]

/-- C6 witness: with pool = {a (name Logitech), b (name Gizmo TrackPoint)} and
operator rule list ["gizmo"], the rule match on b beats the keyword match on a. -/
theorem choose_ordered_precedence_witness :
    choose_ordered
      [⟨"/dev/a", "aaa-event-mouse", "by-id", "Logitech", true, false⟩,
       ⟨"/dev/b", "bbb-event-mouse", "by-id", "Gizmo TrackPoint", true, false⟩]
      true ["gizmo"] = some ("/dev/b", Reason.byRule 1 "gizmo") :=
  (choose_ordered_precedence
      [⟨"/dev/a", "aaa-event-mouse", "by-id", "Logitech", true, false⟩,
       ⟨"/dev/b", "bbb-event-mouse", "by-id", "Gizmo TrackPoint", true, false⟩]
      true ["gizmo"]).2.2.1 ("/dev/b", Reason.byRule 1 "gizmo") (by decide)

/-- C7. The selector only ever returns a candidate from the pool that passes
both the class-suffix test and the class-capability test, and it returns none
exactly when the filtered set is empty. -/
theorem choose_ordered_filtered :
    ∀ (pool : List Candidate) (want : Bool) (rules : List String),
      (choose_ordered pool want rules = none ↔ typed_filter pool want = []) ∧
      (∀ p reason, choose_ordered pool want rules = some (p, reason) →
        ∃ c, c ∈ pool ∧ c.path = p ∧
          ends_with_str c.base (suffix_for want) = true ∧ cap_ok c want = true) := by
  intro pool want rules
  cases htyped : typed_filter pool want with
  | nil =>
    constructor
    · unfold choose_ordered
      rw [htyped]
      simp
    · intro p reason h
      unfold choose_ordered at h
      rw [htyped] at h
      exact absurd h (by simp)
  | cons c0 rest =>
    have hsome : ∀ p reason, choose_ordered pool want rules = some (p, reason) →
        ∃ c, c ∈ c0 :: rest ∧ c.path = p := by
      intro p reason h
      simp only [choose_ordered, htyped] at h
      cases hrule : rule_scan (c0 :: rest) rules 1 with
      | some pr =>
        simp only [hrule] at h
        injection h with h1
        rw [h1] at hrule
        exact rule_scan_mem _ _ _ _ _ hrule
      | none =>
        simp only [hrule] at h
        cases hkw : kw_scan (c0 :: rest) (if want then tp_kws else kb_kws) with
        | some pr =>
          simp only [hkw] at h
          injection h with h1
          rw [h1] at hkw
          exact kw_scan_mem _ _ _ _ hkw
        | none =>
          simp only [hkw] at h
          injection h with h1
          exact ⟨c0, List.mem_cons_self c0 rest, congrArg Prod.fst h1⟩
    constructor
    · constructor
      · intro h
        simp only [choose_ordered, htyped] at h
        cases hrule : rule_scan (c0 :: rest) rules 1 with
        | some pr => simp [hrule] at h
        | none =>
          simp only [hrule] at h
          cases hkw : kw_scan (c0 :: rest) (if want then tp_kws else kb_kws) with
          | some pr => simp [hkw] at h
          | none => simp [hkw] at h
      · intro h
        exact absurd h (List.cons_ne_nil c0 rest)
    · intro p reason h
      obtain ⟨c, hc, hp⟩ := hsome p reason h
      rw [← htyped] at hc
      obtain ⟨hpool, hsuf, hcap⟩ := mem_typed_filter pool want c hc
      exact ⟨c, hpool, hp, hsuf, hcap⟩

/-- C7 witness: a pool with a keyword-matching but suffix-failing candidate and
a capable one: the chosen candidate is the capable one, and it passes both
tests. -/
theorem choose_ordered_filtered_witness :
    ∃ c, c ∈
        [⟨"/dev/x", "thinkpad-mouse", "by-id", "ThinkPad TrackPoint", true, false⟩,
         ⟨"/dev/y", "yyy-event-mouse", "by-id", "Plain Pointer", true, false⟩] ∧
      c.path = "/dev/y" ∧
      ends_with_str c.base (suffix_for true) = true ∧ cap_ok c true = true :=
  (choose_ordered_filtered
      [⟨"/dev/x", "thinkpad-mouse", "by-id", "ThinkPad TrackPoint", true, false⟩,
       ⟨"/dev/y", "yyy-event-mouse", "by-id", "Plain Pointer", true, false⟩]
      true []).2 "/dev/y" (Reason.byKeyword "mouse") (by decide)

theorem mem_insert_by_base (x c : Candidate) (l : List Candidate) :
    x ∈ insert_by_base c l ↔ x = c ∨ x ∈ l := by
  induction l with
  | nil => simp [insert_by_base]
  | cons d ds ih =>
    unfold insert_by_base
    by_cases hle : c.base ≤ d.base
    · simp [hle]
    · simp [hle, ih]
      tauto

theorem mem_sort_by_base (x : Candidate) (l : List Candidate) :
    x ∈ sort_by_base l ↔ x ∈ l := by
  induction l with
  | nil => simp [sort_by_base]
  | cons c cs ih =>
    unfold sort_by_base
    rw [mem_insert_by_base, ih]
    simp

/-- C9. A failed capability probe reports an empty name and no capabilities,
and is not fatal: a symlink entry with the per-event marker whose open fails is
kept in the catalog with both capability flags false and an empty name. -/
theorem probe_failure_soft :
    evdev_caps none = ("", false, false) ∧
    ∀ (entries : List FsEntry) (origin : String) (e : FsEntry),
      e ∈ entries → e.is_link = true → has_sub_str "event-" e.base = true →
      e.probe = none →
      ({ path := e.path, base := e.base, origin := origin, name := "",
         has_rel_xy := false, has_keys := false } : Candidate) ∈
        scan_symlinks true entries origin := by
  refine ⟨rfl, ?_⟩
  intro entries origin e hmem hlink hsub hprobe
  unfold scan_symlinks
  rw [if_pos rfl, mem_sort_by_base, List.mem_filterMap]
  refine ⟨e, hmem, ?_⟩
  rw [hlink, hsub, hprobe]
  rfl

/-- C9 witness: a single unopenable symlink entry is kept with empty name and
both flags false. -/
theorem probe_failure_soft_witness :
    evdev_caps none = ("", false, false) ∧
    ({ path := "/dev/input/by-id/x-event-mouse", base := "x-event-mouse",
       origin := "by-id", name := "", has_rel_xy := false, has_keys := false } :
        Candidate) ∈
      scan_symlinks true
        [⟨"/dev/input/by-id/x-event-mouse", "x-event-mouse", true, none⟩] "by-id" :=
  ⟨probe_failure_soft.1,
   probe_failure_soft.2
     [⟨"/dev/input/by-id/x-event-mouse", "x-event-mouse", true, none⟩] "by-id"
     ⟨"/dev/input/by-id/x-event-mouse", "x-event-mouse", true, none⟩
     (by simp) rfl (by decide) rfl⟩

end Trackpoint3d
